import Mathlib

/-!
Shallow embedding of the DesignPatterns repository (C++ teaching examples:
Flyweight, Observer, Command, Singleton, Strategy, Decorator, Prototype) and
proofs about the embedded operations.

Conventions used throughout:
* C++ heap objects that have observable identity are given an explicit `id : Nat`
  drawn from an allocation counter threaded through the operations; two objects
  are "the same object" exactly when their ids coincide.
* Console output, when a claim depends on it, is modelled as a `List String` of
  the printed lines; otherwise it is elided.
* Fallible / undefined behaviour is made explicit with `Except` or `Option`.
-/

namespace Flyweight

/-- `struct SharedState` from Flyweight.cpp: the intrinsic state
(`brand_`, `model_`, `color_`). -/
structure SharedState where
  brand_ : String
  model_ : String
  color_ : String
deriving DecidableEq, Repr

/-- `class Flyweight` from Flyweight.cpp.  The C++ object owns a heap copy of
its `SharedState`; both the converting constructor and the copy constructor
allocate a fresh copy, so every `Flyweight` object is a distinct heap object.
The allocation identity is modelled by `id`. -/
structure Flyweight where
  id : Nat
  shared_state_ : SharedState
deriving DecidableEq, Repr

/-- `class FlyweightFactory`: `flyweights_` is the
`std::unordered_map<std::string, Flyweight>` modelled as an association list
(insertion order is irrelevant to the claims; `mapInsert` below keeps the
map's no-overwrite semantics), plus the allocation counter for `Flyweight`
object identities. -/
structure FlyweightFactory where
  flyweights_ : List (String × Flyweight)
  nextId : Nat
deriving DecidableEq, Repr

/-- `FlyweightFactory::GetKey`: `ss.brand_ + "_" + ss.model_ + "_" + ss.color_`. -/
def GetKey (ss : SharedState) : String :=
  ss.brand_ ++ "_" ++ ss.model_ ++ "_" ++ ss.color_

/-- `unordered_map::find` on the modelled map. -/
def mapFind (m : List (String × Flyweight)) (k : String) : Option Flyweight :=
  match m with
  | [] => none
  | (k', v) :: rest => if k' = k then some v else mapFind rest k

/-- `unordered_map::insert`: inserts only when the key is absent
(`insert` never overwrites an existing entry). -/
def mapInsert (m : List (String × Flyweight)) (k : String) (v : Flyweight) :
    List (String × Flyweight) :=
  match mapFind m k with
  | some _ => m
  | none => m ++ [(k, v)]

/-- `FlyweightFactory::GetFlyweight`.  If `find(key) == end()` the factory
constructs `Flyweight(&shared_state)` (a fresh object, id `nextId`) and stores
it; in both branches the function then executes
`return this->flyweights_.at(key);`, and since the C++ return type is
`Flyweight` **by value**, the returned object is produced by the copy
constructor: a fresh object (id incremented again) carrying a copy of the
cached entry's shared state.  Intermediate temporaries elided by the compiler
are not counted; only the stored object and the returned copy get ids. -/
def GetFlyweight (f : FlyweightFactory) (shared_state : SharedState) :
    Flyweight × FlyweightFactory :=
  let key := GetKey shared_state
  match mapFind f.flyweights_ key with
  | none =>
      let stored : Flyweight := ⟨f.nextId, shared_state⟩
      let m' := mapInsert f.flyweights_ key stored
      (⟨f.nextId + 1, stored.shared_state_⟩,
       { flyweights_ := m', nextId := f.nextId + 2 })
  | some fw =>
      (⟨f.nextId, fw.shared_state_⟩, { f with nextId := f.nextId + 1 })

/-- The factory a client starts from before pre-population: empty map,
allocation counter at zero. -/
def emptyFactory : FlyweightFactory := ⟨[], 0⟩

end Flyweight

namespace Observer

/-- Observers are identified by their addresses in the C++ code; modelled as
numeric identities. -/
abbrev ObserverId := Nat

/-- `Publisher::list_observer_` is a `std::list<IObserver*>`, modelled as the
list of observer identities in insertion order. -/
abbrev ObserverList := List ObserverId

/-- `Publisher::Attach`: `list_observer_.push_back(observer)`. -/
def Attach (l : ObserverList) (observer : ObserverId) : ObserverList :=
  l ++ [observer]

/-- `Publisher::Detach`: `list_observer_.remove(observer)`.
`std::list::remove` removes **every** element comparing equal to the argument
and keeps the relative order of the remaining elements. -/
def Detach (l : ObserverList) (observer : ObserverId) : ObserverList :=
  l.filter (fun x => x ≠ observer)

/-- `Publisher::Notify` delivers the current message to every observer in list
order; the delivery schedule (who gets notified, in order) is the list itself. -/
def Notify (l : ObserverList) : List ObserverId := l

end Observer

namespace Command

/-- The concrete `Command` objects of Command.cpp: `SimpleCommand` captures a
payload string; `ComplexCommand` captures a receiver plus two context strings
(`a_`, `b_`).  The `Receiver` carries no state, so only the captured strings
matter. -/
inductive Cmd where
  | simpleCommand (pay_load_ : String)
  | complexCommand (a_ : String) (b_ : String)
deriving DecidableEq, Repr

/-- `Command::Execute()` for each concrete command, as the list of lines it
prints (`Receiver::DoSomething` / `DoSomethingElse` print one line each). -/
def Execute : Cmd → List String
  | .simpleCommand p =>
      ["SimpleCommand: See, I can do simple things like printing (" ++ p ++ ")"]
  | .complexCommand a b =>
      ["ComplexCommand: Complex stuff should be done by a receiver object.",
       "Receiver: Working on (" ++ a ++ ".)",
       "Receiver: Also working on (" ++ b ++ ".)"]

/-- The value held by a `Command*` member of `Invoker`.  The class declares
`Command* on_start_; Command* on_finish_;` with **no** initializers and no
user constructor, and `main` allocates with `new Invoker` (default-
initialization), so a member that was never assigned holds an indeterminate
pointer value, distinguished here from a genuine null pointer. -/
inductive CmdPtr where
  | indeterminate
  | null
  | cmd (c : Cmd)
deriving DecidableEq, Repr

/-- `class Invoker`: the two command slots. -/
structure Invoker where
  on_start_ : CmdPtr
  on_finish_ : CmdPtr
deriving DecidableEq, Repr

/-- `new Invoker`: default-initialization leaves both pointer members with
indeterminate values. -/
def newInvoker : Invoker := ⟨.indeterminate, .indeterminate⟩

/-- `Invoker::SetOnStart`. -/
def SetOnStart (i : Invoker) (command : Cmd) : Invoker :=
  { i with on_start_ := .cmd command }

/-- `Invoker::SetOnFinish`. -/
def SetOnFinish (i : Invoker) (command : Cmd) : Invoker :=
  { i with on_finish_ := .cmd command }

/-- Evaluation of one slot inside `DoSomethingImportant`:
`if (this->on_start_) { this->on_start_->Execute(); }`.
Testing a null pointer is well defined and skips the call; testing (and
potentially dereferencing) an indeterminate pointer is undefined behaviour. -/
def execSlot : CmdPtr → Except String (List String)
  | .indeterminate => .error "undefined behaviour: read of indeterminate pointer"
  | .null => .ok []
  | .cmd c => .ok (Execute c)

/-- `Invoker::DoSomethingImportant`, as the printed lines (or undefined
behaviour when a slot read is undefined). -/
def DoSomethingImportant (i : Invoker) : Except String (List String) := do
  let s ← execSlot i.on_start_
  let f ← execSlot i.on_finish_
  pure (["Invoker: Does anybody want something done before I begin?"] ++ s ++
        ["Invoker: ...doing something really important...",
         "Invoker: Does anybody want something done after I finish?"] ++ f)

end Command

namespace Singleton

/-- The `Singleton` object: its only data member is `std::string m_value`,
set once by the protected constructor. -/
structure SingletonObj where
  m_value : String
deriving DecidableEq, Repr

/-- `Singleton::Value()`. -/
def Value (s : SingletonObj) : String := s.m_value

/-- `Singleton::m_instance_ptr`: null (`none`, the Uninitialized state) or
the one constructed instance (`some`, the Initialized state). -/
abbrev SingletonState := Option SingletonObj

/-- `Singleton::GetInstance(value)` run sequentially (the whole body is under
the `lock_guard`, so each call is atomic with respect to the others): if the
instance pointer is null, construct the instance from `value` and store it;
in either case return the stored instance.  Returns the result and the
updated static state. -/
def GetInstance (value : String) (st : SingletonState) :
    SingletonObj × SingletonState :=
  match st with
  | none => (⟨value⟩, some ⟨value⟩)
  | some inst => (inst, some inst)

/-- A sequence of `GetInstance` calls with the given arguments, from a given
static state; returns the instances handed back to each caller in order and
the final static state. -/
def RunCalls (values : List String) (st : SingletonState) :
    List SingletonObj × SingletonState :=
  match values with
  | [] => ([], st)
  | v :: rest =>
      let (inst, st') := GetInstance v st
      let (insts, stFinal) := RunCalls rest st'
      (inst :: insts, stFinal)

end Singleton

namespace Strategy

/-- The two concrete strategies of the Strategy example (Observer.cpp also
contains the Strategy program): `ConcreteStrategyA` sorts ascending with
`std::less<>`, `ConcreteStrategyB` sorts descending with `std::greater<>`. -/
inductive StrategyKind where
  | concreteStrategyA
  | concreteStrategyB
deriving DecidableEq, Repr

/-- `doAlgorithm` of each concrete strategy: copy the input characters and
`std::sort` them with the strategy's comparator. -/
def doAlgorithm : StrategyKind → String → String
  | .concreteStrategyA, data => ⟨(data.toList).insertionSort (· ≤ ·)⟩
  | .concreteStrategyB, data => ⟨(data.toList).insertionSort (· ≥ ·)⟩

/-- `class Context`: `strategy_` is a `std::unique_ptr<Strategy>`, possibly
empty. -/
structure Context where
  strategy_ : Option StrategyKind
deriving DecidableEq, Repr

/-- `Context(std::unique_ptr<Strategy>&& strategy = {})`: the default
argument is the empty pointer. -/
def Context.mkDefault : Context := ⟨none⟩

/-- `Context::set_strategy`. -/
def set_strategy (_c : Context) (strategy : Option StrategyKind) : Context :=
  ⟨strategy⟩

/-- `Context::doSomeBusinessLogic(text_to_sort)`, as its printed lines:
with a strategy bound it prints the banner line and the sorted result;
with no strategy it prints exactly `Context: Strategy isn't set`. -/
def doSomeBusinessLogic (c : Context) (text_to_sort : String) : List String :=
  match c.strategy_ with
  | some s =>
      ["Context: Sorting data using the strategy (not sure how it will do it)",
       doAlgorithm s text_to_sort]
  | none => ["Context: Strategy isn't set"]

end Strategy

namespace Decorator

/-- The `Component` hierarchy of Decorator.cpp: the concrete component, the
(non-abstract) base `Decorator`, and the three concrete decorators, each
wrapping an inner component. -/
inductive Component where
  | concreteComponent
  | decorator (component_ : Component)
  | concreteDecoratorA (component_ : Component)
  | concreteDecoratorB (component_ : Component)
  | concreteDecoratorC (component_ : Component)
deriving DecidableEq, Repr

/-- `Operation()` of each class: the concrete component returns its name, the
base `Decorator` forwards to the wrapped component unchanged, each concrete
decorator wraps the forwarded result in its own marker. -/
def Operation : Component → String
  | .concreteComponent => "ConcreteComponent"
  | .decorator c => Operation c
  | .concreteDecoratorA c => "ConcreteDecoratorA(" ++ Operation c ++ ")"
  | .concreteDecoratorB c => "ConcreteDecoratorB(" ++ Operation c ++ ")"
  | .concreteDecoratorC c => "ConcreteDecoratorC(" ++ Operation c ++ ")"

/-- One of the three concrete decorator classes, as a tag. -/
inductive DecKind where
  | A
  | B
  | C
deriving DecidableEq, Repr

/-- The marker string each concrete decorator contributes. -/
def marker : DecKind → String
  | .A => "ConcreteDecoratorA"
  | .B => "ConcreteDecoratorB"
  | .C => "ConcreteDecoratorC"

/-- Wrap a component in one concrete decorator. -/
def wrap (d : DecKind) (c : Component) : Component :=
  match d with
  | .A => .concreteDecoratorA c
  | .B => .concreteDecoratorB c
  | .C => .concreteDecoratorC c

/-- Wrap a component in a stack of concrete decorators, first list element
applied first (innermost), last element outermost. -/
def stack (ds : List DecKind) (c : Component) : Component :=
  match ds with
  | [] => c
  | d :: rest => stack rest (wrap d c)

/-- The nesting of `n` markers around a base string, innermost marker first:
each decorator in turn encloses the accumulated result in `marker(...)`. -/
def nest (ds : List DecKind) (s : String) : String :=
  match ds with
  | [] => s
  | d :: rest => nest rest (marker d ++ "(" ++ s ++ ")")

end Decorator

namespace Prototype

/-- The objects of the Prototype hierarchy.  Both concrete classes inherit
`prototype_name_ : string` and `prototype_field_ : float` from `Prototype`
and add one own field (`concrete_prototype_field1_` / `_field2_`).  The
`float` fields are only ever stored and copied in this code (never computed
with), so their values are modelled by the exact rationals ℚ. -/
inductive ProtoObj where
  | concretePrototype1 (prototype_name_ : String) (prototype_field_ : ℚ)
      (concrete_prototype_field1_ : ℚ)
  | concretePrototype2 (prototype_name_ : String) (prototype_field_ : ℚ)
      (concrete_prototype_field2_ : ℚ)
deriving DecidableEq, Repr

/-- The heap of prototype objects: a list indexed by allocation order, so an
object's identity is its index and `new` appends. -/
abbrev Heap := List ProtoObj

/-- `Prototype::Clone()` for both concrete classes:
`return new ConcretePrototypeN(*this);` — allocate a fresh object whose
fields are copied from the receiver (the compiler-generated copy constructor
copies every data member).  Returns the new object's identity and the heap. -/
def Clone (h : Heap) (p : Nat) : Nat × Heap :=
  match h[p]? with
  | some obj => (h.length, h ++ [obj])
  | none => (h.length, h)

/-- `Prototype::Method(prototype_field)`:
`this->prototype_field_ = prototype_field;` (plus a print, elided). -/
def Method (h : Heap) (p : Nat) (prototype_field : ℚ) : Heap :=
  match h[p]? with
  | some (.concretePrototype1 name _ f1) =>
      h.set p (.concretePrototype1 name prototype_field f1)
  | some (.concretePrototype2 name _ f2) =>
      h.set p (.concretePrototype2 name prototype_field f2)
  | none => h

end Prototype

namespace SingletonMT

/-- The program counter of a thread running `Singleton::GetInstance`:
`start` — before the `lock_guard` constructor acquires `m_mutex`;
`check` — holding the mutex, about to test `m_instance_ptr == nullptr`;
`create` — holding the mutex, observed null, about to run
  `m_instance_ptr = new Singleton(value)`;
`unlock` — return value recorded, about to release the mutex
  (`lock_guard` destructor);
`done` — returned. -/
inductive TPC where
  | start
  | check
  | create
  | unlock
  | done
deriving DecidableEq, Repr

/-- One thread: its program counter and the `Singleton*` its call returned
(object identities are construction numbers). -/
structure ThreadSt where
  pc : TPC
  ret : Option Nat
deriving DecidableEq, Repr

/-- The shared state of the multithreaded Singleton program: `numThreads`
threads (indices `0 .. numThreads-1` of `threads`), `m_mutex` (the index of
the thread holding it, if any), `m_instance_ptr` (the identity of the
constructed instance, if any), and a count of how many times the `Singleton`
constructor has run. -/
structure SysSt where
  numThreads : Nat
  threads : Nat → ThreadSt
  m_mutex : Option Nat
  m_instance_ptr : Option Nat
  constructed : Nat

/-- All threads about to call `GetInstance`, mutex free, instance null. -/
def initSys (n : Nat) : SysSt :=
  { numThreads := n
    threads := fun _ => ⟨.start, none⟩
    m_mutex := none
    m_instance_ptr := none
    constructed := 0 }

/-- One interleaving step of the multithreaded Singleton program: some thread
`i` executes its next instruction.  Only the mutex acquisition blocks (it
requires `m_mutex` free); the straight-line instructions inside the critical
section simply execute. -/
inductive Step : SysSt → SysSt → Prop where
  | lock (s : SysSt) (i : Nat) (hi : i < s.numThreads)
      (hpc : (s.threads i).pc = .start) (hmx : s.m_mutex = none) :
      Step s { s with
        threads := Function.update s.threads i ⟨.check, (s.threads i).ret⟩
        m_mutex := some i }
  | checkFound (s : SysSt) (i : Nat) (p : Nat) (hi : i < s.numThreads)
      (hpc : (s.threads i).pc = .check) (hinst : s.m_instance_ptr = some p) :
      Step s { s with
        threads := Function.update s.threads i ⟨.unlock, some p⟩ }
  | checkNull (s : SysSt) (i : Nat) (hi : i < s.numThreads)
      (hpc : (s.threads i).pc = .check) (hinst : s.m_instance_ptr = none) :
      Step s { s with
        threads := Function.update s.threads i ⟨.create, (s.threads i).ret⟩ }
  | create (s : SysSt) (i : Nat) (hi : i < s.numThreads)
      (hpc : (s.threads i).pc = .create) :
      Step s { s with
        threads := Function.update s.threads i ⟨.unlock, some s.constructed⟩
        m_instance_ptr := some s.constructed
        constructed := s.constructed + 1 }
  | release (s : SysSt) (i : Nat) (hi : i < s.numThreads)
      (hpc : (s.threads i).pc = .unlock) :
      Step s { s with
        threads := Function.update s.threads i ⟨.done, (s.threads i).ret⟩
        m_mutex := none }

/-- Reachability: zero or more interleaving steps. -/
def Reachable (s s' : SysSt) : Prop := Relation.ReflTransGen Step s s'

/-- A thread is inside the critical section guarded by `m_mutex`. -/
def inCS (t : TPC) : Prop := t = .check ∨ t = .create ∨ t = .unlock

/-- The inductive invariant of the multithreaded Singleton program. -/
structure Inv (s : SysSt) : Prop where
  mutexCS : ∀ i, i < s.numThreads → inCS (s.threads i).pc → s.m_mutex = some i
  createNull : ∀ i, i < s.numThreads → (s.threads i).pc = .create →
    s.m_instance_ptr = none
  instNone : s.m_instance_ptr = none → s.constructed = 0
  instSome : ∀ p, s.m_instance_ptr = some p → p = 0 ∧ s.constructed = 1
  retInst : ∀ i, i < s.numThreads → ∀ r, (s.threads i).ret = some r →
    s.m_instance_ptr = some r
  retSet : ∀ i, i < s.numThreads →
    ((s.threads i).pc = .unlock ∨ (s.threads i).pc = .done) →
    ∃ r, (s.threads i).ret = some r

end SingletonMT

namespace SingletonMT

theorem inv_init (n : Nat) : Inv (initSys n) := by
  refine ⟨?_, ?_, ?_, ?_, ?_, ?_⟩
  · intro j hj hcs
    rcases hcs with h | h | h <;> simp [initSys] at h
  · intro j hj h
    simp [initSys] at h
  · intro h; rfl
  · intro p hp
    simp [initSys] at hp
  · intro j hj r hr
    simp [initSys] at hr
  · intro j hj h
    rcases h with h | h <;> simp [initSys] at h

theorem inv_step {s s' : SysSt} (hinv : Inv s) (hstep : Step s s') : Inv s' := by
  cases hstep with
  | lock i hi hpc hmx =>
      refine ⟨?_, ?_, ?_, ?_, ?_, ?_⟩
      · intro j hj hcs
        by_cases hji : j = i
        · subst hji; rfl
        · exfalso
          simp only [Function.update_noteq hji] at hcs
          have h := hinv.mutexCS j hj hcs
          rw [hmx] at h
          exact Option.noConfusion h
      · intro j hj hcr
        by_cases hji : j = i
        · subst hji
          simp only [Function.update_same] at hcr
          exact absurd hcr (by simp)
        · simp only [Function.update_noteq hji] at hcr
          exact hinv.createNull j hj hcr
      · exact hinv.instNone
      · exact hinv.instSome
      · intro j hj r hr
        by_cases hji : j = i
        · subst hji
          simp only [Function.update_same] at hr
          exact hinv.retInst j hj r hr
        · simp only [Function.update_noteq hji] at hr
          exact hinv.retInst j hj r hr
      · intro j hj h
        by_cases hji : j = i
        · subst hji
          simp only [Function.update_same] at h
          rcases h with h | h <;> exact absurd h (by simp)
        · simp only [Function.update_noteq hji] at h ⊢
          exact hinv.retSet j hj h
  | checkFound i p hi hpc hinst =>
      have hmx := hinv.mutexCS i hi (by rw [hpc]; exact Or.inl rfl)
      refine ⟨?_, ?_, ?_, ?_, ?_, ?_⟩
      · intro j hj hcs
        by_cases hji : j = i
        · subst hji; exact hmx
        · simp only [Function.update_noteq hji] at hcs
          exact hinv.mutexCS j hj hcs
      · intro j hj hcr
        by_cases hji : j = i
        · subst hji
          simp only [Function.update_same] at hcr
          exact absurd hcr (by simp)
        · exfalso
          simp only [Function.update_noteq hji] at hcr
          have h := hinv.createNull j hj hcr
          rw [hinst] at h
          exact Option.noConfusion h
      · exact hinv.instNone
      · exact hinv.instSome
      · intro j hj r hr
        by_cases hji : j = i
        · subst hji
          simp only [Function.update_same] at hr
          cases hr
          exact hinst
        · simp only [Function.update_noteq hji] at hr
          exact hinv.retInst j hj r hr
      · intro j hj h
        by_cases hji : j = i
        · subst hji
          exact ⟨p, by simp only [Function.update_same]⟩
        · simp only [Function.update_noteq hji] at h ⊢
          exact hinv.retSet j hj h
  | checkNull i hi hpc hinst =>
      have hmx := hinv.mutexCS i hi (by rw [hpc]; exact Or.inl rfl)
      refine ⟨?_, ?_, ?_, ?_, ?_, ?_⟩
      · intro j hj hcs
        by_cases hji : j = i
        · subst hji; exact hmx
        · simp only [Function.update_noteq hji] at hcs
          exact hinv.mutexCS j hj hcs
      · intro j hj hcr
        exact hinst
      · exact hinv.instNone
      · exact hinv.instSome
      · intro j hj r hr
        by_cases hji : j = i
        · subst hji
          simp only [Function.update_same] at hr
          exact hinv.retInst j hj r hr
        · simp only [Function.update_noteq hji] at hr
          exact hinv.retInst j hj r hr
      · intro j hj h
        by_cases hji : j = i
        · subst hji
          simp only [Function.update_same] at h
          rcases h with h | h <;> exact absurd h (by simp)
        · simp only [Function.update_noteq hji] at h ⊢
          exact hinv.retSet j hj h
  | create i hi hpc =>
      have hmx := hinv.mutexCS i hi (by rw [hpc]; exact Or.inr (Or.inl rfl))
      have hnull := hinv.createNull i hi hpc
      have hc0 := hinv.instNone hnull
      refine ⟨?_, ?_, ?_, ?_, ?_, ?_⟩
      · intro j hj hcs
        by_cases hji : j = i
        · subst hji; exact hmx
        · simp only [Function.update_noteq hji] at hcs
          exact hinv.mutexCS j hj hcs
      · intro j hj hcr
        exfalso
        by_cases hji : j = i
        · subst hji
          simp only [Function.update_same] at hcr
          exact absurd hcr (by simp)
        · simp only [Function.update_noteq hji] at hcr
          have h := hinv.mutexCS j hj (Or.inr (Or.inl hcr))
          rw [hmx] at h
          cases h
          exact hji rfl
      · intro h
        exact absurd h (by simp)
      · intro p hp
        cases hp
        exact ⟨hc0, by rw [hc0]⟩
      · intro j hj r hr
        by_cases hji : j = i
        · subst hji
          simp only [Function.update_same] at hr
          cases hr
          rfl
        · exfalso
          simp only [Function.update_noteq hji] at hr
          have h := hinv.retInst j hj r hr
          rw [hnull] at h
          exact Option.noConfusion h
      · intro j hj h
        by_cases hji : j = i
        · subst hji
          exact ⟨s.constructed, by simp only [Function.update_same]⟩
        · simp only [Function.update_noteq hji] at h ⊢
          exact hinv.retSet j hj h
  | release i hi hpc =>
      have hmx := hinv.mutexCS i hi (by rw [hpc]; exact Or.inr (Or.inr rfl))
      refine ⟨?_, ?_, ?_, ?_, ?_, ?_⟩
      · intro j hj hcs
        exfalso
        by_cases hji : j = i
        · subst hji
          simp only [Function.update_same] at hcs
          rcases hcs with h | h | h <;> exact absurd h (by simp)
        · simp only [Function.update_noteq hji] at hcs
          have h := hinv.mutexCS j hj hcs
          rw [hmx] at h
          cases h
          exact hji rfl
      · intro j hj hcr
        by_cases hji : j = i
        · subst hji
          simp only [Function.update_same] at hcr
          exact absurd hcr (by simp)
        · simp only [Function.update_noteq hji] at hcr
          exact hinv.createNull j hj hcr
      · exact hinv.instNone
      · exact hinv.instSome
      · intro j hj r hr
        by_cases hji : j = i
        · subst hji
          simp only [Function.update_same] at hr
          exact hinv.retInst j hj r hr
        · simp only [Function.update_noteq hji] at hr
          exact hinv.retInst j hj r hr
      · intro j hj h
        by_cases hji : j = i
        · subst hji
          simp only [Function.update_same]
          exact hinv.retSet _ hi (Or.inl hpc)
        · simp only [Function.update_noteq hji] at h ⊢
          exact hinv.retSet j hj h

theorem inv_reachable {s s' : SysSt} (hinv : Inv s) (h : Reachable s s') :
    Inv s' := by
  induction h with
  | refl => exact hinv
  | tail _ hstep ih => exact inv_step ih hstep

theorem step_numThreads {s s' : SysSt} (h : Step s s') :
    s'.numThreads = s.numThreads := by
  cases h <;> rfl

theorem reachable_numThreads {s s' : SysSt} (h : Reachable s s') :
    s'.numThreads = s.numThreads := by
  induction h with
  | refl => rfl
  | tail _ hstep ih => rw [step_numThreads hstep, ih]

end SingletonMT

theorem decorator_wrap_marker (d : Decorator.DecKind) (c : Decorator.Component) :
    Decorator.Operation (Decorator.wrap d c) =
      Decorator.marker d ++ "(" ++ Decorator.Operation c ++ ")" := by
  cases d <;> rfl

theorem decorator_stack_eq_nest (ds : List Decorator.DecKind)
    (c : Decorator.Component) :
    Decorator.Operation (Decorator.stack ds c) =
      Decorator.nest ds (Decorator.Operation c) := by
  induction ds generalizing c with
  | nil => rfl
  | cons d rest ih =>
      rw [Decorator.stack, Decorator.nest, ih, decorator_wrap_marker]

/-- C8: `Operation()` on a stack of decorators wraps the base component's
result in every decorator's marker, innermost first; in particular wrapping
`ConcreteComponent` with decorators A then B then C yields exactly
`ConcreteDecoratorC(ConcreteDecoratorB(ConcreteDecoratorA(ConcreteComponent)))`,
and the base `Decorator` forwards the wrapped component's result unchanged. -/
theorem decorator_stack_nests_markers :
    (Decorator.Operation
        (.concreteDecoratorC (.concreteDecoratorB
          (.concreteDecoratorA .concreteComponent))) =
      "ConcreteDecoratorC(ConcreteDecoratorB(ConcreteDecoratorA(ConcreteComponent)))") ∧
    (∀ c : Decorator.Component,
      Decorator.Operation (.decorator c) = Decorator.Operation c) ∧
    (∀ (ds : List Decorator.DecKind) (c : Decorator.Component),
      Decorator.Operation (Decorator.stack ds c) =
        Decorator.nest ds (Decorator.Operation c)) :=
  ⟨rfl, fun _ => rfl, decorator_stack_eq_nest⟩

/-- C6: `doAlgorithm` on `"haegicbjdf"` yields `"abcdefghij"` under
`ConcreteStrategyA` and `"jihgfedcba"` under `ConcreteStrategyB`, and in
general each strategy returns the characters of its input sorted ascending
respectively descending. -/
theorem strategy_doAlgorithm_sorts :
    (Strategy.doAlgorithm .concreteStrategyA "haegicbjdf" = "abcdefghij") ∧
    (Strategy.doAlgorithm .concreteStrategyB "haegicbjdf" = "jihgfedcba") ∧
    (∀ s : String,
      (Strategy.doAlgorithm .concreteStrategyA s).toList.Sorted (· ≤ ·) ∧
      (Strategy.doAlgorithm .concreteStrategyA s).toList.Perm s.toList) ∧
    (∀ s : String,
      (Strategy.doAlgorithm .concreteStrategyB s).toList.Sorted (· ≥ ·) ∧
      (Strategy.doAlgorithm .concreteStrategyB s).toList.Perm s.toList) :=
  ⟨by decide, by decide,
   fun s => ⟨List.sorted_insertionSort _ _, List.perm_insertionSort _ _⟩,
   fun s => ⟨List.sorted_insertionSort _ _, List.perm_insertionSort _ _⟩⟩

/-- C7: on a `Context` whose strategy is unset, `doSomeBusinessLogic` prints
exactly the explicit unset-condition line and performs no sorting (it is a
total function, so it returns normally); the default-constructed `Context`
holds no strategy. -/
theorem context_without_strategy_reports_unset :
    (∀ text : String, Strategy.doSomeBusinessLogic ⟨none⟩ text =
      ["Context: Strategy isn't set"]) ∧
    Strategy.Context.mkDefault.strategy_ = none ∧
    (∀ (text : String) (s : Strategy.StrategyKind),
      Strategy.doSomeBusinessLogic ⟨some s⟩ text =
        ["Context: Sorting data using the strategy (not sure how it will do it)",
         Strategy.doAlgorithm s text]) :=
  ⟨fun _ => rfl, rfl, fun _ _ => rfl⟩

/-- C2 counterexample: after attaching the same observer twice, a single
`Detach` empties the list — the later duplicate entry does **not** stay
subscribed, contradicting the claim that only the first matching entry is
removed. -/
theorem observer_detach_counterexample :
    Observer.Attach (Observer.Attach [] 7) 7 = [7, 7] ∧
    Observer.Detach (Observer.Attach (Observer.Attach [] 7) 7) 7 = [] ∧
    Observer.Detach (Observer.Attach (Observer.Attach [] 7) 7) 7 ≠ [7] := by
  refine ⟨rfl, rfl, ?_⟩
  decide

/-- C2 (amended): `Detach` removes **every** entry equal to the given
observer (`std::list::remove` semantics), keeping the remaining entries in
order; detaching an observer that is not in the list is a silent no-op. -/
theorem observer_detach_removes_every_match (l : Observer.ObserverList)
    (o : Observer.ObserverId) :
    (o ∉ l → Observer.Detach l o = l) ∧
    o ∉ Observer.Detach l o ∧
    List.Sublist (Observer.Detach l o) l ∧
    (∀ x, x ≠ o → (Observer.Detach l o).count x = l.count x) := by
  refine ⟨?_, ?_, List.filter_sublist l, ?_⟩
  · intro ho
    rw [Observer.Detach, List.filter_eq_self]
    intro a ha
    have hao : a ≠ o := fun hao => ho (hao ▸ ha)
    simp [hao]
  · intro hmem
    rw [Observer.Detach, List.mem_filter] at hmem
    simp at hmem
  · intro x hx
    exact List.count_filter (by simp [hx])

/-- C2 witness: the amended statement instantiated at the list `[2, 1, 3, 1]`
and observer `1`. -/
theorem observer_detach_removes_every_match_witness :
    ((1 : Observer.ObserverId) ∉ ([2, 1, 3, 1] : Observer.ObserverList) →
      Observer.Detach [2, 1, 3, 1] 1 = [2, 1, 3, 1]) ∧
    (1 : Observer.ObserverId) ∉ Observer.Detach [2, 1, 3, 1] 1 ∧
    List.Sublist (Observer.Detach [2, 1, 3, 1] 1) [2, 1, 3, 1] ∧
    (∀ x, x ≠ 1 → (Observer.Detach [2, 1, 3, 1] 1).count x =
      ([2, 1, 3, 1] : Observer.ObserverList).count x) :=
  observer_detach_removes_every_match [2, 1, 3, 1] 1

/-- C3: the claim says an unbound command slot is skipped as a no-op, but the
code never initializes `on_start_` / `on_finish_`, so on a freshly
constructed `Invoker` with neither setter called, `DoSomethingImportant`
reads indeterminate pointers — undefined behaviour, not a guaranteed no-op.
With both slots bound the call does execute both commands normally. -/
theorem invoker_unbound_slot_is_undefined :
    Command.DoSomethingImportant Command.newInvoker =
      Except.error "undefined behaviour: read of indeterminate pointer" ∧
    (∀ c : Command.Cmd, Command.DoSomethingImportant
        (Command.SetOnStart Command.newInvoker c) =
      Except.error "undefined behaviour: read of indeterminate pointer") ∧
    (∀ c c' : Command.Cmd, Command.DoSomethingImportant
        (Command.SetOnFinish (Command.SetOnStart Command.newInvoker c) c') =
      Except.ok
        (["Invoker: Does anybody want something done before I begin?"] ++
         Command.Execute c ++
         ["Invoker: ...doing something really important...",
          "Invoker: Does anybody want something done after I finish?"] ++
         Command.Execute c')) :=
  ⟨rfl, fun _ => rfl, fun _ _ => rfl⟩

theorem singleton_runCalls_initialized (vs : List String)
    (inst : Singleton.SingletonObj) :
    Singleton.RunCalls vs (some inst) =
      (List.replicate vs.length inst, some inst) := by
  induction vs with
  | nil => rfl
  | cons w rest ih =>
      simp [Singleton.RunCalls, Singleton.GetInstance, ih, List.replicate]

/-- C4: the first `GetInstance` call constructs the instance from its
argument; every later call returns that same instance with its own argument
ignored (`Value()` still yields the first argument), and once the state is
Initialized (`some _`), `GetInstance` never returns it to Uninitialized. -/
theorem singleton_first_argument_wins (v : String) (rest : List String) :
    (Singleton.RunCalls (v :: rest) none).1 =
      List.replicate (rest.length + 1) ⟨v⟩ ∧
    (Singleton.RunCalls (v :: rest) none).2 = some ⟨v⟩ ∧
    (∀ inst ∈ (Singleton.RunCalls (v :: rest) none).1,
      Singleton.Value inst = v) ∧
    (∀ (w : String) (inst : Singleton.SingletonObj),
      Singleton.GetInstance w (some inst) = (inst, some inst)) := by
  have hrun : Singleton.RunCalls (v :: rest) none =
      ((⟨v⟩ : Singleton.SingletonObj) :: List.replicate rest.length ⟨v⟩,
       some ⟨v⟩) := by
    simp [Singleton.RunCalls, Singleton.GetInstance,
      singleton_runCalls_initialized]
  refine ⟨?_, ?_, ?_, fun w inst => rfl⟩
  · rw [hrun]
    simp [List.replicate]
  · rw [hrun]
  · intro inst hmem
    rw [hrun] at hmem
    simp only [List.mem_cons, List.mem_replicate] at hmem
    rcases hmem with h | ⟨-, h⟩ <;> rw [h] <;> rfl

theorem flyweight_mapFind_append_self
    {m : List (String × Flyweight.Flyweight)} {k : String}
    {v : Flyweight.Flyweight} (h : Flyweight.mapFind m k = none) :
    Flyweight.mapFind (m ++ [(k, v)]) k = some v := by
  induction m with
  | nil => simp [Flyweight.mapFind]
  | cons kv rest ih =>
      obtain ⟨k', v'⟩ := kv
      by_cases hk : k' = k
      · rw [Flyweight.mapFind, if_pos hk] at h
        exact Option.noConfusion h
      · rw [Flyweight.mapFind, if_neg hk] at h
        rw [List.cons_append, Flyweight.mapFind, if_neg hk]
        exact ih h

/-- C1 counterexample: two `GetFlyweight` calls with the same shared state
return objects with distinct identities — `GetFlyweight` returns the cached
flyweight **by value**, so the caller gets a fresh copy each time, not an
identity-equal reference to the one cached instance. -/
theorem flyweight_not_identity_counterexample :
    (Flyweight.GetFlyweight
        (Flyweight.GetFlyweight Flyweight.emptyFactory ⟨"BMW", "M5", "red"⟩).2
        ⟨"BMW", "M5", "red"⟩).1.id ≠
      (Flyweight.GetFlyweight Flyweight.emptyFactory ⟨"BMW", "M5", "red"⟩).1.id := by
  decide

/-- C1 (amended): two `GetFlyweight` calls with identical brand, model and
color fields resolve to the same single cache entry — the second call finds
the entry the first call stored and inserts nothing new — and both return
flyweights carrying equal shared state; but since the function returns the
entry by value, the two returned objects are distinct copies, not
identity-equal references. -/
theorem flyweight_same_key_reuses_cache_entry
    (f : Flyweight.FlyweightFactory) (s1 s2 : Flyweight.SharedState)
    (hb : s1.brand_ = s2.brand_) (hm : s1.model_ = s2.model_)
    (hc : s1.color_ = s2.color_) :
    (Flyweight.GetFlyweight (Flyweight.GetFlyweight f s1).2 s2).2.flyweights_ =
      (Flyweight.GetFlyweight f s1).2.flyweights_ ∧
    (Flyweight.GetFlyweight (Flyweight.GetFlyweight f s1).2 s2).1.shared_state_ =
      (Flyweight.GetFlyweight f s1).1.shared_state_ ∧
    (Flyweight.GetFlyweight (Flyweight.GetFlyweight f s1).2 s2).1.id ≠
      (Flyweight.GetFlyweight f s1).1.id := by
  have hkey : Flyweight.GetKey s2 = Flyweight.GetKey s1 := by
    rw [Flyweight.GetKey, Flyweight.GetKey, hb, hm, hc]
  cases hfind : Flyweight.mapFind f.flyweights_ (Flyweight.GetKey s1) with
  | none =>
      have hins : Flyweight.mapInsert f.flyweights_ (Flyweight.GetKey s1)
          ⟨f.nextId, s1⟩ =
          f.flyweights_ ++ [(Flyweight.GetKey s1, ⟨f.nextId, s1⟩)] := by
        rw [Flyweight.mapInsert, hfind]
      have hfind2 : Flyweight.mapFind
          (f.flyweights_ ++ [(Flyweight.GetKey s1, ⟨f.nextId, s1⟩)])
          (Flyweight.GetKey s2) = some ⟨f.nextId, s1⟩ := by
        rw [hkey]
        exact flyweight_mapFind_append_self hfind
      simp only [Flyweight.GetFlyweight, hfind, hins, hfind2]
      exact ⟨trivial, trivial, by omega⟩
  | some fw =>
      have hfind2 : Flyweight.mapFind f.flyweights_ (Flyweight.GetKey s2) =
          some fw := by
        rw [hkey]
        exact hfind
      simp only [Flyweight.GetFlyweight, hfind, hfind2]
      exact ⟨trivial, trivial, by omega⟩

/-- C1 witness: the amended statement instantiated at the empty factory and
the shared state `("BMW", "M5", "red")` requested twice. -/
theorem flyweight_same_key_reuses_cache_entry_witness :
    (Flyweight.GetFlyweight
        (Flyweight.GetFlyweight Flyweight.emptyFactory ⟨"BMW", "M5", "red"⟩).2
        ⟨"BMW", "M5", "red"⟩).2.flyweights_ =
      (Flyweight.GetFlyweight Flyweight.emptyFactory ⟨"BMW", "M5", "red"⟩).2.flyweights_ ∧
    (Flyweight.GetFlyweight
        (Flyweight.GetFlyweight Flyweight.emptyFactory ⟨"BMW", "M5", "red"⟩).2
        ⟨"BMW", "M5", "red"⟩).1.shared_state_ =
      (Flyweight.GetFlyweight Flyweight.emptyFactory ⟨"BMW", "M5", "red"⟩).1.shared_state_ ∧
    (Flyweight.GetFlyweight
        (Flyweight.GetFlyweight Flyweight.emptyFactory ⟨"BMW", "M5", "red"⟩).2
        ⟨"BMW", "M5", "red"⟩).1.id ≠
      (Flyweight.GetFlyweight Flyweight.emptyFactory ⟨"BMW", "M5", "red"⟩).1.id :=
  flyweight_same_key_reuses_cache_entry Flyweight.emptyFactory
    ⟨"BMW", "M5", "red"⟩ ⟨"BMW", "M5", "red"⟩ rfl rfl rfl

/-- C10: the cache key joins brand, model and color with `"_"` and is not
injective: brand `"a_b"`, model `"c"` and brand `"a"`, model `"b_c"` (same
color) are distinct shared states with the same key, so after requesting the
first, requesting the second returns a flyweight carrying the **first**
state, and the cache still holds a single entry. -/
theorem flyweight_key_not_injective :
    Flyweight.GetKey ⟨"a_b", "c", "white"⟩ = Flyweight.GetKey ⟨"a", "b_c", "white"⟩ ∧
    (⟨"a_b", "c", "white"⟩ : Flyweight.SharedState) ≠ ⟨"a", "b_c", "white"⟩ ∧
    (Flyweight.GetFlyweight
        (Flyweight.GetFlyweight Flyweight.emptyFactory ⟨"a_b", "c", "white"⟩).2
        ⟨"a", "b_c", "white"⟩).2.flyweights_.length = 1 ∧
    (Flyweight.GetFlyweight
        (Flyweight.GetFlyweight Flyweight.emptyFactory ⟨"a_b", "c", "white"⟩).2
        ⟨"a", "b_c", "white"⟩).1.shared_state_ = ⟨"a_b", "c", "white"⟩ := by
  decide

/-- C9: `Clone()` allocates a new object distinct from the receiver, with
field values equal to the receiver's at the moment of cloning, and a later
`Method` call mutating the receiver's `prototype_field_` leaves the clone's
fields unchanged. -/
theorem prototype_clone_is_independent (h : Prototype.Heap) (p : Nat)
    (hp : p < h.length) (v : ℚ) :
    (Prototype.Clone h p).1 ≠ p ∧
    (Prototype.Clone h p).2[(Prototype.Clone h p).1]? = h[p]? ∧
    (Prototype.Method (Prototype.Clone h p).2 p v)[(Prototype.Clone h p).1]? =
      (Prototype.Clone h p).2[(Prototype.Clone h p).1]? := by
  obtain ⟨obj, hobj⟩ : ∃ o, h[p]? = some o :=
    ⟨h.get ⟨p, hp⟩, by rw [List.getElem?_eq_getElem hp]; rfl⟩
  have hne : h.length ≠ p := (Nat.ne_of_lt hp).symm
  have happ : (h ++ [obj])[p]? = some obj := by
    rw [List.getElem?_append_left hp, hobj]
  simp only [Prototype.Clone, hobj]
  refine ⟨hne, ?_, ?_⟩
  · rw [List.getElem?_concat_length]
  · cases obj with
    | concretePrototype1 name fld f1 =>
        simp only [Prototype.Method, happ]
        rw [List.getElem?_set_ne (Ne.symm hne)]
    | concretePrototype2 name fld f2 =>
        simp only [Prototype.Method, happ]
        rw [List.getElem?_set_ne (Ne.symm hne)]

/-- C9 witness: a one-object heap holding `ConcretePrototype1` with name
`"PROTOTYPE_1 "` and fields `50`, cloned and then mutated via `Method 90`. -/
theorem prototype_clone_is_independent_witness :
    ((Prototype.Clone [.concretePrototype1 "PROTOTYPE_1 " 50 50] 0).1 ≠ 0 ∧
    (Prototype.Clone [.concretePrototype1 "PROTOTYPE_1 " 50 50] 0).2[
        (Prototype.Clone [.concretePrototype1 "PROTOTYPE_1 " 50 50] 0).1]? =
      ([.concretePrototype1 "PROTOTYPE_1 " 50 50] : Prototype.Heap)[0]? ∧
    (Prototype.Method (Prototype.Clone [.concretePrototype1 "PROTOTYPE_1 " 50 50] 0).2
        0 90)[(Prototype.Clone [.concretePrototype1 "PROTOTYPE_1 " 50 50] 0).1]? =
      (Prototype.Clone [.concretePrototype1 "PROTOTYPE_1 " 50 50] 0).2[
        (Prototype.Clone [.concretePrototype1 "PROTOTYPE_1 " 50 50] 0).1]?) :=
  prototype_clone_is_independent [.concretePrototype1 "PROTOTYPE_1 " 50 50] 0
    (by decide) 90

/-- C5: in any interleaved execution of N threads calling
`Singleton::GetInstance` from the uninitialized state, the `lock_guard` on
`m_mutex` serializes the check-and-create sequence, so when all threads have
returned the `Singleton` constructor has run exactly once and every thread's
call returned the same instance. -/
theorem singleton_concurrent_construct_once (n : Nat) (hn : 0 < n)
    (s : SingletonMT.SysSt) (hreach : SingletonMT.Reachable (SingletonMT.initSys n) s)
    (hdone : ∀ i, i < n → (s.threads i).pc = SingletonMT.TPC.done) :
    s.constructed = 1 ∧ ∃ p, s.m_instance_ptr = some p ∧
      ∀ i, i < n → (s.threads i).ret = some p := by
  have hinv := SingletonMT.inv_reachable (SingletonMT.inv_init n) hreach
  have hnum : s.numThreads = n := SingletonMT.reachable_numThreads hreach
  obtain ⟨r, hr⟩ := hinv.retSet 0 (by rw [hnum]; exact hn) (Or.inr (hdone 0 hn))
  have hinst := hinv.retInst 0 (by rw [hnum]; exact hn) r hr
  obtain ⟨hr0, hc1⟩ := hinv.instSome r hinst
  subst hr0
  refine ⟨hc1, 0, hinst, ?_⟩
  intro i hi
  obtain ⟨ri, hri⟩ := hinv.retSet i (by rw [hnum]; exact hi) (Or.inr (hdone i hi))
  have hinsti := hinv.retInst i (by rw [hnum]; exact hi) ri hri
  rw [hinst] at hinsti
  cases hinsti
  exact hri

/-- C5 witness: an explicit interleaving of one thread (lock, null check,
construct, unlock) reaching an all-done state, to which the theorem applies. -/
theorem singleton_concurrent_construct_once_witness :
    ∃ s : SingletonMT.SysSt,
      SingletonMT.Reachable (SingletonMT.initSys 1) s ∧
      (∀ i, i < 1 → (s.threads i).pc = SingletonMT.TPC.done) ∧
      (s.constructed = 1 ∧ ∃ p, s.m_instance_ptr = some p ∧
        ∀ i, i < 1 → (s.threads i).ret = some p) := by
  have hreach := Relation.ReflTransGen.head
    (SingletonMT.Step.lock (SingletonMT.initSys 1) 0 Nat.one_pos rfl rfl)
    (Relation.ReflTransGen.head
      (SingletonMT.Step.checkNull _ 0 Nat.one_pos rfl rfl)
      (Relation.ReflTransGen.head
        (SingletonMT.Step.create _ 0 Nat.one_pos rfl)
        (Relation.ReflTransGen.head
          (SingletonMT.Step.release _ 0 Nat.one_pos rfl)
          Relation.ReflTransGen.refl)))
  refine ⟨_, hreach, ?_, singleton_concurrent_construct_once 1 Nat.one_pos _ hreach ?_⟩
  · intro i hi
    have h0 : i = 0 := Nat.lt_one_iff.mp hi
    subst h0
    rfl
  · intro i hi
    have h0 : i = 0 := Nat.lt_one_iff.mp hi
    subst h0
    rfl

/-- C4 witness: the statement instantiated at a first call with `"FOO"`
followed by a second call with `"BAR"`. -/
theorem singleton_first_argument_wins_witness :
    (Singleton.RunCalls ["FOO", "BAR"] none).1 =
      List.replicate 2 ⟨"FOO"⟩ ∧
    (Singleton.RunCalls ["FOO", "BAR"] none).2 = some ⟨"FOO"⟩ ∧
    (∀ inst ∈ (Singleton.RunCalls ["FOO", "BAR"] none).1,
      Singleton.Value inst = "FOO") ∧
    (∀ (w : String) (inst : Singleton.SingletonObj),
      Singleton.GetInstance w (some inst) = (inst, some inst)) :=
  singleton_first_argument_wins "FOO" ["BAR"]
